import Mathlib

/-!
Verification of the litex-boards sources (nereid.py SoC target and the
radiona_ulx3s.py platform) against their natural-language specification.

The PCIeUART bridge (nereid.py, class PCIeUART) is embedded as a Moore-style
synchronous machine: `BridgeState` holds the registered signals
(`uart.source.valid` from the `self.sync` block and the `tx_data` CSRStorage
register), `BridgeInput` holds the per-cycle stimuli (CSR write pulses `re`,
the downstream `uart.source.ready`, the upstream `uart.sink` signals), and
`bridgeComb` gives the combinational outputs of the `self.comb` blocks while
`bridgeStep` gives the next registered state of the `self.sync` block.
-/

/-- Registered state of the PCIeUART bridge: `uart.source.valid` is the only
signal assigned in the `self.sync` block; `tx_data` is the 8-bit CSRStorage
register. -/
structure BridgeState where
  source_valid : Bool
  tx_data : Nat
deriving Repr, DecidableEq

/-- Per-cycle inputs of the bridge: CSR write pulses (`tx_valid.re`,
`rx_ready.re`, a host write of a byte into the `tx_data` storage), the
downstream `uart.source.ready`, and the upstream `uart.sink.valid` /
`uart.sink.data`. -/
structure BridgeInput where
  tx_valid_re : Bool
  tx_data_write : Option Nat
  source_ready : Bool
  rx_ready_re : Bool
  sink_valid : Bool
  sink_data : Nat
deriving Repr, DecidableEq

/-- Combinational outputs of the bridge, one field per `self.comb` assignment:
`rx_valid.status`, `uart.sink.ready`, `rx_data.status`, `tx_ready.status`,
`uart.source.data`; `uart.source.valid` (the registered signal as seen
downstream this cycle) is included as well. -/
structure BridgeOutput where
  rx_valid_status : Bool
  sink_ready : Bool
  rx_data_status : Nat
  tx_ready_status : Bool
  source_valid : Bool
  source_data : Nat
deriving Repr, DecidableEq

/-- The `self.comb` blocks of PCIeUART:
`rx_valid.status = uart.sink.valid`, `uart.sink.ready = rx_ready.re`,
`rx_data.status = uart.sink.data`, `tx_ready.status = ~uart.source.valid`,
`uart.source.data = tx_data.storage`. -/
def bridgeComb (s : BridgeState) (i : BridgeInput) : BridgeOutput :=
  { rx_valid_status := i.sink_valid
    sink_ready := i.rx_ready_re
    rx_data_status := i.sink_data
    tx_ready_status := !s.source_valid
    source_valid := s.source_valid
    source_data := s.tx_data }

/-- The `self.sync` block of PCIeUART:
`If(tx_valid.re, source.valid <= 1).Elif(source.ready, source.valid <= 0)`,
together with the CSRStorage update of `tx_data` (an 8-bit register, so a
host write is reduced mod 256). -/
def bridgeStep (s : BridgeState) (i : BridgeInput) : BridgeState :=
  { source_valid :=
      if i.tx_valid_re then true
      else if i.source_ready then false
      else s.source_valid
    tx_data :=
      match i.tx_data_write with
      | some b => b % 256
      | none => s.tx_data }

/-- Running the bridge over a list of per-cycle inputs. -/
def bridgeRun (s : BridgeState) (is : List BridgeInput) : BridgeState :=
  is.foldl bridgeStep s

/-- The TX state machine exactly as the spec claims it: from Idle
(`source_valid = false`) to Transmitting exactly on a `tx_valid.re` pulse,
and from Transmitting to Idle exactly on downstream ready. -/
def txClaimedFSM (s : BridgeState) (i : BridgeInput) : Prop :=
  (s.source_valid = false →
    ((bridgeStep s i).source_valid = true ↔ i.tx_valid_re = true)) ∧
  (s.source_valid = true →
    ((bridgeStep s i).source_valid = false ↔ i.source_ready = true))

/-- **C2.** In every cycle, `tx_ready.status` equals the negation of the
registered `uart.source.valid` (transmission in flight); stated over an
arbitrary reachable state of any run. -/
theorem tx_ready_is_not_in_flight (s0 : BridgeState) (is : List BridgeInput)
    (t : Nat) (j : BridgeInput) :
    (bridgeComb (bridgeRun s0 (is.take t)) j).tx_ready_status
      = !(bridgeRun s0 (is.take t)).source_valid := rfl

/-- **C8.** In every cycle, `rx_valid.status` mirrors `uart.sink.valid` and
`rx_data.status` mirrors `uart.sink.data`, combinationally: the outputs
depend only on the current-cycle sink inputs, not on any bridge state. -/
theorem rx_mirrors_sink (s s' : BridgeState) (i : BridgeInput) :
    (bridgeComb s i).rx_valid_status = i.sink_valid ∧
    (bridgeComb s i).rx_data_status = i.sink_data ∧
    (bridgeComb s i).rx_valid_status = (bridgeComb s' i).rx_valid_status ∧
    (bridgeComb s i).rx_data_status = (bridgeComb s' i).rx_data_status :=
  ⟨rfl, rfl, rfl, rfl⟩

/-- **C4.** The upstream `uart.sink.ready` is asserted in a cycle exactly when
the host writes `rx_ready` in that cycle: a one-cycle acknowledge pulse, in
every state (in particular whenever `rx_valid` is true). -/
theorem sink_ready_is_rx_ready_pulse (s : BridgeState) (i : BridgeInput) :
    ((bridgeComb s i).sink_ready = true ↔ i.rx_ready_re = true) ∧
    (bridgeComb s i).sink_ready = i.rx_ready_re :=
  ⟨Iff.rfl, rfl⟩

/-- **C9.** A `tx_valid.re` pulse has priority over downstream ready: if both
occur in the same cycle while the bridge is Transmitting, the bridge stays
Transmitting (`source_valid` stays 1). -/
theorem tx_pulse_priority_over_ready (s : BridgeState) (i : BridgeInput)
    (hs : s.source_valid = true) (hp : i.tx_valid_re = true)
    (hr : i.source_ready = true) :
    (bridgeStep s i).source_valid = true := by
  simp [bridgeStep, hp]

/-- Witness for C9 at a concrete transmitting state with simultaneous pulse
and ready. -/
theorem tx_pulse_priority_over_ready_witness :
    (bridgeStep ⟨true, 65⟩ ⟨true, none, true, false, false, 0⟩).source_valid
      = true :=
  tx_pulse_priority_over_ready ⟨true, 65⟩ ⟨true, none, true, false, false, 0⟩
    rfl rfl rfl

/-- Holding stretch: while no CSR write occurs (`tx_valid.re` false, no
`tx_data` write) and downstream ready stays low, a transmitting bridge keeps
`source_valid` asserted and its `tx_data` register unchanged. -/
theorem bridgeRun_hold (l : List BridgeInput) (s : BridgeState)
    (hs : s.source_valid = true)
    (hl : ∀ i ∈ l, i.source_ready = false ∧ i.tx_valid_re = false ∧
      i.tx_data_write = none) :
    (bridgeRun s l).source_valid = true ∧ (bridgeRun s l).tx_data = s.tx_data := by
  induction l generalizing s with
  | nil => exact ⟨hs, rfl⟩
  | cons a l ih =>
    have ha := hl a (by simp)
    have h1 : (bridgeStep s a).source_valid = true := by
      simp [bridgeStep, ha.1, ha.2.1, hs]
    have h2 : (bridgeStep s a).tx_data = s.tx_data := by
      simp [bridgeStep, ha.2.2]
    have hrest := ih (bridgeStep s a) h1 (fun i hi => hl i (by simp [hi]))
    exact ⟨hrest.1, hrest.2.trans h2⟩

/-- **C3.** Writing byte `b` to `tx_data`, then pulsing `tx_valid` in a cycle
where `tx_ready` is true, with no further writes: the downstream channel
presents `valid = 1` with `data = b`, holds them through every cycle of a
ready-less stretch, and once downstream ready is observed `tx_ready` returns
to true. -/
theorem tx_transfer_protocol (s0 : BridgeState) (b : Nat) (hb : b < 256)
    (w p f : BridgeInput) (hold : List BridgeInput) (n : Nat)
    (j j' : BridgeInput)
    (hwb : w.tx_data_write = some b)
    (hpv : p.tx_valid_re = true) (hpw : p.tx_data_write = none)
    (hready : (bridgeComb (bridgeStep s0 w) p).tx_ready_status = true)
    (hhold : ∀ i ∈ hold, i.source_ready = false ∧ i.tx_valid_re = false ∧
      i.tx_data_write = none)
    (hfr : f.source_ready = true) (hfv : f.tx_valid_re = false)
    (hfw : f.tx_data_write = none) :
    (bridgeComb (bridgeRun (bridgeStep (bridgeStep s0 w) p) (hold.take n))
        j).source_valid = true ∧
    (bridgeComb (bridgeRun (bridgeStep (bridgeStep s0 w) p) (hold.take n))
        j).source_data = b ∧
    (bridgeComb (bridgeStep (bridgeRun (bridgeStep (bridgeStep s0 w) p) hold)
        f) j').tx_ready_status = true := by
  have hs1d : (bridgeStep s0 w).tx_data = b := by
    simp [bridgeStep, hwb, Nat.mod_eq_of_lt hb]
  have hs2v : (bridgeStep (bridgeStep s0 w) p).source_valid = true := by
    simp [bridgeStep, hpv]
  have hkeep : (bridgeStep (bridgeStep s0 w) p).tx_data
      = (bridgeStep s0 w).tx_data := by
    simp [bridgeStep, hpw]
  have hs2d : (bridgeStep (bridgeStep s0 w) p).tx_data = b := hkeep.trans hs1d
  have htake := bridgeRun_hold (hold.take n) _ hs2v
    (fun i hi => hhold i (List.mem_of_mem_take hi))
  have hfull := bridgeRun_hold hold _ hs2v hhold
  refine ⟨htake.1, htake.2.trans hs2d, ?_⟩
  simp [bridgeComb, bridgeStep, hfv, hfr]

/-- Witness for C3: byte 0x41, one held cycle, then downstream ready. -/
theorem tx_transfer_protocol_witness :
    (bridgeComb (bridgeRun
        (bridgeStep (bridgeStep ⟨false, 0⟩ ⟨false, some 65, false, false, false, 0⟩)
          ⟨true, none, false, false, false, 0⟩)
        ([⟨false, none, false, false, false, 0⟩].take 1))
      ⟨false, none, false, false, false, 0⟩).source_valid = true ∧
    (bridgeComb (bridgeRun
        (bridgeStep (bridgeStep ⟨false, 0⟩ ⟨false, some 65, false, false, false, 0⟩)
          ⟨true, none, false, false, false, 0⟩)
        ([⟨false, none, false, false, false, 0⟩].take 1))
      ⟨false, none, false, false, false, 0⟩).source_data = 65 ∧
    (bridgeComb (bridgeStep (bridgeRun
        (bridgeStep (bridgeStep ⟨false, 0⟩ ⟨false, some 65, false, false, false, 0⟩)
          ⟨true, none, false, false, false, 0⟩)
        [⟨false, none, false, false, false, 0⟩])
      ⟨false, none, true, false, false, 0⟩)
      ⟨false, none, false, false, false, 0⟩).tx_ready_status = true :=
  tx_transfer_protocol ⟨false, 0⟩ 65 (by decide)
    ⟨false, some 65, false, false, false, 0⟩
    ⟨true, none, false, false, false, 0⟩
    ⟨false, none, true, false, false, 0⟩
    [⟨false, none, false, false, false, 0⟩] 1
    ⟨false, none, false, false, false, 0⟩
    ⟨false, none, false, false, false, 0⟩
    rfl rfl rfl (by decide) (by decide) rfl rfl rfl

/-- Counterexample to C1 as stated: in the Transmitting state with a
simultaneous `tx_valid.re` pulse and downstream ready, the bridge does not
return to Idle, so "Transmitting moves to Idle exactly on downstream ready"
fails at this concrete input. -/
theorem tx_fsm_claim_counterexample :
    ¬ txClaimedFSM ⟨true, 0⟩ ⟨true, none, true, false, false, 0⟩ := by
  intro h
  have := (h.2 rfl).mpr rfl
  simp [bridgeStep] at this

/-- **C1 (amended).** The TX path is a two-state machine on `source_valid`:
Idle moves to Transmitting exactly on a `tx_valid.re` pulse; Transmitting
moves to Idle exactly on downstream ready in a cycle with no `tx_valid.re`
pulse (the pulse has priority and keeps the machine Transmitting); a pulse
while already Transmitting causes no extra transition. -/
theorem tx_fsm_amended (s : BridgeState) (i : BridgeInput) :
    (s.source_valid = false →
      ((bridgeStep s i).source_valid = true ↔ i.tx_valid_re = true)) ∧
    (s.source_valid = true →
      ((bridgeStep s i).source_valid = false ↔
        (i.source_ready = true ∧ i.tx_valid_re = false))) := by
  cases hs : s.source_valid <;> cases hp : i.tx_valid_re <;>
    cases hr : i.source_ready <;> simp [bridgeStep, hp, hr, hs]

/-- Witness for the amended C1: from Transmitting, downstream ready with no
pulse returns the machine to Idle. -/
theorem tx_fsm_amended_witness :
    (bridgeStep ⟨true, 0⟩ ⟨false, none, true, false, false, 0⟩).source_valid
      = false :=
  ((tx_fsm_amended ⟨true, 0⟩ ⟨false, none, true, false, false, 0⟩).2 rfl).mpr
    ⟨rfl, rfl⟩

/-- **C10.** `uart.source.data` is tied combinationally to the `tx_data`
storage register, so a host write of `b` to `tx_data` while a transmission is
in flight changes the data presented on the in-flight transfer to `b` while
`valid` stays asserted. -/
theorem source_data_combinational (s : BridgeState) (i j : BridgeInput)
    (b : Nat) (hb : b < 256) (hs : s.source_valid = true)
    (hw : i.tx_data_write = some b) (hv : i.tx_valid_re = false)
    (hr : i.source_ready = false) :
    (bridgeComb s j).source_data = s.tx_data ∧
    (bridgeStep s i).source_valid = true ∧
    (bridgeComb (bridgeStep s i) j).source_data = b := by
  refine ⟨rfl, ?_, ?_⟩
  · simp [bridgeStep, hv, hr, hs]
  · simp [bridgeComb, bridgeStep, hw, Nat.mod_eq_of_lt hb]

/-- Witness for C10: overwriting the byte mid-flight retargets the presented
data. -/
theorem source_data_combinational_witness :
    (bridgeComb ⟨true, 65⟩ ⟨false, none, false, false, false, 0⟩).source_data
        = (⟨true, 65⟩ : BridgeState).tx_data ∧
    (bridgeStep ⟨true, 65⟩ ⟨false, some 66, false, false, false, 0⟩).source_valid
        = true ∧
    (bridgeComb (bridgeStep ⟨true, 65⟩ ⟨false, some 66, false, false, false, 0⟩)
        ⟨false, none, false, false, false, 0⟩).source_data = 66 :=
  source_data_combinational ⟨true, 65⟩ ⟨false, some 66, false, false, false, 0⟩
    ⟨false, none, false, false, false, 0⟩ 66 (by decide) rfl rfl rfl rfl

/-!
Interrupt index allocator (nereid.py, NereidSoC.__init__):
`for i, (k, v) in enumerate(sorted(self.msis.items())): ...
 self.add_constant(k + "_INTERRUPT", i)`.
Python sorts the dict items by key, i.e. lexicographically by Unicode code
point on the source name.
-/

/-- Lexicographic comparison of character lists by Unicode code point, as
Python compares strings. -/
def lexLe : List Char → List Char → Bool
  | [], _ => true
  | _ :: _, [] => false
  | a :: as, b :: bs =>
    if a < b then true
    else if b < a then false
    else lexLe as bs

/-- Python's string ordering: lexicographic on the code points. -/
def strLe (a b : String) : Bool := lexLe a.data b.data

/-- One insertion step of a stable ascending insertion sort. -/
def insertSorted (x : String) : List String → List String
  | [] => [x]
  | y :: ys => if strLe x y then x :: y :: ys else y :: insertSorted x ys

/-- Python's `sorted` on a list of distinct names: ascending by `strLe`. -/
def sortNames : List String → List String
  | [] => []
  | x :: xs => insertSorted x (sortNames xs)

/-- The allocator: sort the names, then pair each with its position, as
`enumerate(sorted(...))` does; the result lists `(name, index)`. -/
def allocate (names : List String) : List (String × Nat) :=
  (sortNames names).enum.map (fun p => (p.2, p.1))

/-- The constants published by `add_constant(k + "_INTERRUPT", i)`. -/
def addConstants (names : List String) : List (String × Nat) :=
  (allocate names).map (fun p => (p.1 ++ "_INTERRUPT", p.2))

/-- The `self.msis` dict of NereidSoC, in insertion order. -/
def msis : List String := ["DMA_WRITER", "DMA_READER"]

theorem insertSorted_perm (x : String) (l : List String) :
    List.Perm (insertSorted x l) (x :: l) := by
  induction l with
  | nil => simp [insertSorted]
  | cons y ys ih =>
    by_cases h : strLe x y
    · simp [insertSorted, h]
    · simp only [insertSorted, if_neg h]
      exact List.Perm.trans (List.Perm.cons y ih) (List.Perm.swap x y ys)

theorem sortNames_perm (l : List String) : List.Perm (sortNames l) l := by
  induction l with
  | nil => simp [sortNames]
  | cons x xs ih =>
    exact List.Perm.trans (insertSorted_perm x (sortNames xs))
      (List.Perm.cons x ih)

theorem sortNames_length (l : List String) :
    (sortNames l).length = l.length :=
  (sortNames_perm l).length_eq

/-- **C5.** The allocator sorts the names lexicographically and assigns dense
indices 0..N-1 in that order: concretely, for the `msis` dict it assigns
DMA_READER index 0 and DMA_WRITER index 1 and publishes the matching
`*_INTERRUPT` constants; in general the assigned indices are exactly
`0..N-1` and the allocated names are a permutation of the sources, so on
distinct names the mapping is a bijection onto `{0..N-1}`. -/
theorem interrupt_index_allocation :
    allocate msis = [("DMA_READER", 0), ("DMA_WRITER", 1)] ∧
    addConstants msis = [("DMA_READER_INTERRUPT", 0), ("DMA_WRITER_INTERRUPT", 1)] ∧
    (∀ names : List String,
      (allocate names).map Prod.snd = List.range names.length) ∧
    (∀ names : List String,
      List.Perm ((allocate names).map Prod.fst) names) := by
  refine ⟨by decide, by decide, ?_, ?_⟩
  · intro names
    have hc : (Prod.snd ∘ fun p : Nat × String => (p.2, p.1)) = Prod.fst := by
      funext p; rfl
    have h : (allocate names).map Prod.snd
        = (sortNames names).enum.map Prod.fst := by
      unfold allocate
      rw [List.map_map, hc]
    rw [h, List.enum_map_fst, sortNames_length]
  · intro names
    have hc : (Prod.fst ∘ fun p : Nat × String => (p.2, p.1)) = Prod.snd := by
      funext p; rfl
    have h : (allocate names).map Prod.fst
        = (sortNames names).enum.map Prod.snd := by
      unfold allocate
      rw [List.map_map, hc]
    rw [h, List.enum_map_snd]
    exact sortNames_perm names

/-!
Platform configuration validation (radiona_ulx3s.py, Platform.__init__):
`assert device in [...]`, `assert revision in ["1.7", "2.0"]`, then
`LatticePlatform.__init__(self, device + "-6BG381C", _io, ...)`.
A failed assert raises before any platform object exists.
-/

/-- The device selectors accepted by the ULX3S platform constructor. -/
def supportedDevices : List String :=
  ["LFE5U-12F", "LFE5U-25F", "LFE5U-45F", "LFE5U-85F"]

/-- The board revisions accepted by the ULX3S platform constructor. -/
def supportedRevisions : List String := ["1.7", "2.0"]

/-- The composed platform: the full device string passed to
`LatticePlatform.__init__` and the revision that selected the io set. -/
structure Platform where
  full_device : String
  revision : String
deriving Repr, DecidableEq

/-- `Platform.__init__`: the two asserts in source order, then construction
of the platform with `device + "-6BG381C"`. -/
def Platform.init (device revision : String) : Except String Platform :=
  if device ∈ supportedDevices then
    if revision ∈ supportedRevisions then
      Except.ok ⟨device ++ "-6BG381C", revision⟩
    else Except.error "AssertionError: revision"
  else Except.error "AssertionError: device"

/-- **C6.** The platform constructor succeeds exactly on a supported device
together with revision "1.7" or "2.0"; any other selector fails at
composition time with an error and produces no platform object. -/
theorem platform_config_validation (device revision : String) :
    (∃ p, Platform.init device revision = Except.ok p) ↔
      (device ∈ supportedDevices ∧ revision ∈ supportedRevisions) := by
  unfold Platform.init
  by_cases hd : device ∈ supportedDevices <;>
    by_cases hr : revision ∈ supportedRevisions <;> simp [hd, hr]

/-!
SoC composition outputs (nereid.py, NereidSoC.__init__ and
generate_software_header): the `add_csr` calls in source order (the ddrphy
block is guarded by `if not self.integrated_main_ram_size`, and the uart
blocks by `with_pcie_uart`), and the constants from the MSI allocator.
-/

/-- `integrated_main_ram_size = 0x10000` in the NereidSoC constructor. -/
def integrated_main_ram_size : Nat := 0x10000

/-- The `add_csr` names of NereidSoC in source order. -/
def nereidCsrs (with_pcie_uart : Bool) : List String :=
  ["crg", "dna", "xadc"]
    ++ (if integrated_main_ram_size = 0 then ["ddrphy"] else [])
    ++ ["pcie_phy", "pcie_dma", "pcie_msi"]
    ++ (if with_pcie_uart then ["uart", "pcie_uart"] else [])

/-- The constant listing NereidSoC publishes for the MSI sources. -/
def nereidConstants : List (String × Nat) := addConstants msis

/-- **C7.** Composition is deterministic: the register listing and the
constant listing are fixed functions of the inputs, equal on every run to
one explicit listing (same names, same values, same order). -/
theorem composition_deterministic :
    (∀ u₁ u₂ : Bool, u₁ = u₂ → nereidCsrs u₁ = nereidCsrs u₂) ∧
    nereidCsrs true
      = ["crg", "dna", "xadc", "pcie_phy", "pcie_dma", "pcie_msi",
         "uart", "pcie_uart"] ∧
    nereidCsrs false
      = ["crg", "dna", "xadc", "pcie_phy", "pcie_dma", "pcie_msi"] ∧
    nereidConstants
      = [("DMA_READER_INTERRUPT", 0), ("DMA_WRITER_INTERRUPT", 1)] :=
  ⟨fun _ _ h => h ▸ rfl, by decide, by decide, by decide⟩
